import Mathlib

/-!
Verification of the `pasted-ir-telegram-bot` repository (`src/main.py`).

Shallow embedding conventions:
* Python `str` values are embedded as `List Char`; `len` is `List.length`
  (both count Unicode code points).
* Python's `re.search(pat, subject, re.IGNORECASE)` standard-library call is
  modelled as an oracle parameter `reSearch : String → List Char → Bool`
  (the pattern source text and the subject).  Likewise
  `len(re.findall(rf"\b{escaped}\b", content, re.IGNORECASE))` is modelled
  as an oracle `reCount : String → List Char → Nat` giving the number of
  case-insensitive whole-token occurrences of a keyword.  All theorems are
  proved for every choice of these oracles, so nothing depends on a
  particular regex semantics.
* Python floats appear only in the comparison
  `code_line_count / len(lines) > 0.3`, embedded as the exact comparison
  `10 * code_line_count > 3 * lines.length` (IEEE double division agrees
  with the exact rational comparison for every feasible line count), and in
  `time.time()`, embedded as an arbitrary integer instant.
-/

set_option maxRecDepth 40000

/-- `MIN_MESSAGE_LENGTH` configuration default (`main.py` line 14). -/
def MIN_MESSAGE_LENGTH : Nat := 200

/-- `RATE_LIMIT_WINDOW` configuration default, in seconds (`main.py` line 19). -/
def RATE_LIMIT_WINDOW : Int := 60

/-- `check_rate_limit` (`main.py` lines 33–49).  The global dict
`user_rate_limit : Dict[int, float]` is passed in and returned explicitly as an
association list in insertion order; `time.time()` is the explicit argument
`current_time`.  The body is translated statement by statement:
`user_rate_limit.clear()`, the purge loop deleting entries with
`current_time - timestamp > RATE_LIMIT_WINDOW`, the membership test, and the
insertion.  Returns the Boolean result and the dict after the call. -/
def check_rate_limit (window : Int) (user_id : Nat) (current_time : Int)
    (user_rate_limit : List (Nat × Int)) : Bool × List (Nat × Int) :=
  let m0 : List (Nat × Int) := []
  let m1 := m0.filter (fun p => ! decide (current_time - p.2 > window))
  if m1.any (fun p => p.1 == user_id) then
    (false, m1)
  else
    (true, m1 ++ [(user_id, current_time)])

/-- Whitespace as stripped by Python's `str.strip()` (ASCII part). -/
def pyWhitespace (c : Char) : Bool :=
  c == ' ' || c == '\t' || c == '\n' || c == '\r' || c == '\x0b' || c == '\x0c'

/-- Python `str.strip()`. -/
def pyStrip (s : List Char) : List Char :=
  ((s.dropWhile pyWhitespace).reverse.dropWhile pyWhitespace).reverse

/-- Python `str.split('\n')`: always returns at least one (possibly empty)
piece, keeps empty pieces. -/
def splitLines : List Char → List (List Char)
  | [] => [[]]
  | c :: rest =>
    match splitLines rest with
    | [] => [[c]]
    | h :: t => if c == '\n' then [] :: h :: t else (c :: h) :: t

/-- Python substring test `needle in hay`. -/
def listContains (needle : List Char) : List Char → Bool
  | [] => needle.isEmpty
  | c :: rest => List.isPrefixOf needle (c :: rest) || listContains needle rest

/-- Python `str.lower()` (ASCII part). -/
def lowerStr (s : List Char) : List Char := s.map Char.toLower

/-- One entry of the `language_patterns` dict in
`detect_language_from_content` (`main.py` lines 70–141): regex pattern source
texts, keyword strings, and the weight. -/
structure LangConfig where
  patterns : List String
  keywords : List String
  weight : Nat
deriving DecidableEq

/-- The `language_patterns` dict (`main.py` lines 70–141), as an association
list in the dict's insertion order.  The strings are the Python literals
verbatim (braces and apostrophes written with hexadecimal escapes). -/
def language_patterns : List (String × LangConfig) := [
  ("html", {
    patterns := ["<!DOCTYPE html>", "<html[^>]*>", "<head[^>]*>", "<body[^>]*>",
      "</html>", "\\.html$"],
    keywords := ["<!DOCTYPE", "<html", "<head", "<body", "<div", "<span", "<p",
      "<a", "<script", "<style"],
    weight := 20 }),
  ("css", {
    patterns := ["\\.\\w+\\s*\x7b", "@media\\s*\\(", "@import\\s+url", "\\.css$"],
    keywords := ["\x7b", "\x7d", ":", ";", "@media", "@import", "background",
      "color", "font", "margin", "padding", "display", "position"],
    weight := 15 }),
  ("javascript", {
    patterns := ["function\\s+\\w+\\s*\\(", "const\\s+\\w+\\s*=", "let\\s+\\w+\\s*=",
      "var\\s+\\w+\\s*=", "console\\.log", "\\.js$"],
    keywords := ["function", "const", "let", "var", "console.log", "=>", "async",
      "await", "export", "import", "return", "if", "else"],
    weight := 15 }),
  ("python", {
    patterns := ["^#!/.*python", "import\\s+\\w+", "from\\s+\\w+\\s+import",
      "def\\s+\\w+\\s*\\(", "class\\s+\\w+", "\\.py$"],
    keywords := ["def", "class", "import", "from", "if __name__", "print",
      "return", "self", "True", "False", "None", "try", "except"],
    weight := 15 }),
  ("php", {
    patterns := ["<\\?php", "\\$\\w+\\s*=", "echo\\s+", "function\\s+\\w+", "\\.php$"],
    keywords := ["<?php", "echo", "$", "function", "class", "namespace", "use",
      "return", "if", "else"],
    weight := 12 }),
  ("sql", {
    patterns := ["SELECT\\s+.*FROM", "INSERT\\s+INTO", "UPDATE\\s+\\w+\\s+SET",
      "DELETE\\s+FROM", "CREATE\\s+TABLE", "\\.sql$"],
    keywords := ["SELECT", "INSERT", "UPDATE", "DELETE", "CREATE", "FROM",
      "WHERE", "JOIN", "GROUP BY", "ORDER BY"],
    weight := 12 }),
  ("java", {
    patterns := ["public\\s+class\\s+\\w+", "import\\s+java\\.", "System\\.out\\.print",
      "public\\s+static\\s+void\\s+main", "\\.java$"],
    keywords := ["public", "class", "import", "System.out", "static", "void",
      "String", "int", "private", "protected"],
    weight := 12 }),
  ("cpp", {
    patterns := ["#include\\s*<[^>]+>", "using\\s+namespace\\s+std", "std::",
      "int\\s+main\\s*\\(", "\\.cpp$"],
    keywords := ["#include", "using namespace", "std::", "cout", "cin",
      "int main", "vector", "string", "class"],
    weight := 10 }),
  ("bash", {
    patterns := ["#!/bin/bash", "#!/bin/sh", "echo\\s+[\"\x27]",
      "if\\s+\\[.*\\];\\s+then", "for\\s+\\w+\\s+in", "\\.sh$"],
    keywords := ["#!/bin", "echo", "if [", "for", "while", "do", "done", "then",
      "fi", "exit"],
    weight := 10 }),
  ("json", {
    patterns := ["^\\s*\x7b.*\x7d$", "^\\s*\\[.*\\]$", "\"[\\w-]+\"\\s*:", "\\.json$"],
    keywords := ["\x7b", "\x7d", "[", "]", ":", "\"", "true", "false", "null"],
    weight := 8 }),
  ("xml", {
    patterns := ["<\\?xml[^>]*\\?>", "<[^>]+>.*</[^>]+>", "<[^>]+/>", "\\.xml$"],
    keywords := ["<?xml", "<", ">", "</", "version=", "encoding="],
    weight := 8 }),
  ("yaml", {
    patterns := ["^\\s*\\w+:\\s*[^#\\n]*$", "^\\s*-\\s+\\w+", "^\\s*#.*$",
      "\\.yml$", "\\.yaml$"],
    keywords := [":", "-", "version:", "name:", "description:", "#"],
    weight := 8 }),
  ("markdown", {
    patterns := ["^#\\s+\\w+", "^\\*\\s+\\w+", "^-\\s+\\w+", "\\*\\*[^*]+\\*\\*",
      "__[^_]+__", "\\.md$"],
    keywords := ["#", "*", "-", "##", "###", "**", "__", "```"],
    weight := 6 }),
  ("c", {
    patterns := ["#include\\s*<[^>]+>", "int\\s+main\\s*\\(", "printf\\s*\\(",
      "scanf\\s*\\(", "\\.c$"],
    keywords := ["#include", "int main", "printf", "scanf", "malloc", "free",
      "struct", "return"],
    weight := 5 })]

/-- The score accumulation for one language (`main.py` lines 146–159): start at
0, add `10 * weight` for each pattern for which `re.search` succeeds on the
full content, then add `occurrences * weight` for each keyword. -/
def scoreLang (reSearch : String → List Char → Bool)
    (reCount : String → List Char → Nat)
    (content : List Char) (config : LangConfig) : Nat :=
  let afterPatterns := config.patterns.foldl
    (fun score pat => if reSearch pat content then score + 10 * config.weight else score) 0
  config.keywords.foldl
    (fun score kw => score + reCount kw content * config.weight) afterPatterns

/-- The `scores` dict built by the loop at `main.py` lines 144–162: one pass
over the catalog in insertion order, recording `(lang, score)` only when
`score > 0`. -/
def computeScores (reSearch : String → List Char → Bool)
    (reCount : String → List Char → Nat)
    (content : List Char) : List (String × Nat) :=
  language_patterns.foldl
    (fun scores entry =>
      let score := scoreLang reSearch reCount content entry.2
      if score > 0 then scores ++ [(entry.1, score)] else scores)
    []

/-- Python's `max(scores, key=scores.get)` over a non-empty dict in iteration
order: keep the current best, replacing it only on a strictly greater score
(so ties resolve to the earliest entry). -/
def maxKey : (String × Nat) → List (String × Nat) → String × Nat
  | best, [] => best
  | best, p :: rest => maxKey (if p.2 > best.2 then p else best) rest

/-- The catalog half of `detect_language_from_content`
(`main.py` lines 143–168): score every language, then return the key with the
maximal score if any language scored positively, else `None`. -/
def detectByCatalog (reSearch : String → List Char → Bool)
    (reCount : String → List Char → Nat)
    (content : List Char) : Option String :=
  match computeScores reSearch reCount content with
  | [] => none
  | h :: t => some (maxKey h t).1

/-- The Python locals `lines = content.split('\n')` and
`first_line = lines[0].lower() if lines else ""` (`main.py` lines 57–58);
`split` always returns a non-empty list, so the conditional defaulting to
`""` is the `headD`. -/
def firstLineLower (content : List Char) : List Char :=
  lowerStr ((splitLines content).headD [])

/-- `detect_language_from_content` (`main.py` lines 51–168): guard for empty or
whitespace-only content, shebang shortcut on the lowered first line, otherwise
the scored catalog match. -/
def detect_language_from_content (reSearch : String → List Char → Bool)
    (reCount : String → List Char → Nat)
    (content : List Char) : Option String :=
  if content.isEmpty || (pyStrip content).isEmpty then none
  else if List.isPrefixOf ("#!".toList) (firstLineLower content) then
    if listContains ("python".toList) (firstLineLower content) then some "python"
    else if listContains ("bash".toList) (firstLineLower content)
        || listContains ("sh".toList) (firstLineLower content) then some "bash"
    else if listContains ("node".toList) (firstLineLower content) then some "javascript"
    else detectByCatalog reSearch reCount content
  else detectByCatalog reSearch reCount content

/-- The `code_indicators` regex list in `should_create_paste`
(`main.py` lines 280–287). -/
def code_indicators : List String := [
  "```",
  "^\\s*[a-zA-Z_][a-zA-Z0-9_]*\\s*[=:]\\s*",
  "^\\s*(def|function|class|import|from|if|for|while|try|catch)\\s+",
  "^\\s*[\x7b\x7d()\\[\\]]",
  "^\\s*[#/]\\s*",
  "^\\s*[a-zA-Z_][a-zA-Z0-9_]*\\s*\\("]

/-- The `code_line_count` loop of `should_create_paste`
(`main.py` lines 289–296) over `lines = text.split('\n')`: a line increments
the count at most once (the inner loop breaks at the first matching
indicator, i.e. `List.any`). -/
def code_line_count_of (reSearch : String → List Char → Bool)
    (text : List Char) : Nat :=
  (splitLines text).foldl
    (fun cnt line =>
      if code_indicators.any (fun pat => reSearch pat line) then cnt + 1 else cnt) 0

/-- `should_create_paste` (`main.py` lines 273–307), parameterised by the
`MIN_MESSAGE_LENGTH` configuration value.  The float comparison
`code_line_count / len(lines) > 0.3` is embedded exactly as
`10 * code_line_count > 3 * lines.length`.  The final Python truthiness test
`if detected_lang:` is false for `None` and for an empty tag string. -/
def should_create_paste (minLen : Nat) (reSearch : String → List Char → Bool)
    (reCount : String → List Char → Nat) (text : List Char) : Bool :=
  if text.length < minLen then false
  else if text.length > 1000
      ∨ 10 * code_line_count_of reSearch text > 3 * (splitLines text).length then true
  else
    match detect_language_from_content reSearch reCount text with
    | some tag => if tag == "" then false else true
    | none => false

/-! ### Spec-side definitions

These definitions follow the wording of the specification; the refinement
theorems below compare them with the source-translated definitions above. -/

/-- Modelled from the spec: a language's score is `10 * weight` for each
pattern that matches anywhere in the text (each pattern counted at most once)
plus `weight` times the number of whole-token occurrences of each keyword. -/
def specScore (reSearch : String → List Char → Bool)
    (reCount : String → List Char → Nat)
    (content : List Char) (config : LangConfig) : Nat :=
  10 * config.weight * (config.patterns.filter (fun pat => reSearch pat content)).length
    + config.weight * (config.keywords.map (fun kw => reCount kw content)).sum

/-- Modelled from the spec: the number of lines matching at least one
code-indicator pattern, each line counted at most once. -/
def specCodeLineCount (reSearch : String → List Char → Bool)
    (text : List Char) : Nat :=
  ((splitLines text).filter (fun line => code_indicators.any (fun pat => reSearch pat line))).length

/-- The maximum score among the candidate entries (0 when there are none). -/
def maxScoreVal (l : List (String × Nat)) : Nat :=
  l.foldl (fun m p => max m p.2) 0

/-- Modelled from the spec: the tag of the earliest entry attaining the
maximum score, `none` when the candidate set is empty. -/
def firstMaxTag (l : List (String × Nat)) : Option String :=
  Option.map Prod.fst (l.find? (fun p => p.2 == maxScoreVal l))

/-- The catalog's name set, in catalog order. -/
def catalogNames : List String := language_patterns.map Prod.fst

/-- Whether an input takes the shebang shortcut of
`detect_language_from_content` (first line starts with `#!` and mentions one
of the recognised interpreters). -/
def takesShebangShortcut (content : List Char) : Bool :=
  List.isPrefixOf ("#!".toList) (firstLineLower content) &&
    (listContains ("python".toList) (firstLineLower content)
      || listContains ("bash".toList) (firstLineLower content)
      || listContains ("sh".toList) (firstLineLower content)
      || listContains ("node".toList) (firstLineLower content))

/-! ### Helper lemmas -/

lemma foldl_if_add {α : Type} (P : α → Bool) (k : Nat) :
    ∀ (l : List α) (n : Nat),
      l.foldl (fun s x => if P x then s + k else s) n = n + k * (l.filter P).length := by
  intro l
  induction l with
  | nil => intro n; simp
  | cons a t ih =>
    intro n
    by_cases h : P a
    · simp [h, ih, Nat.mul_succ]
      omega
    · simp [h, ih]

lemma foldl_count_eq {α : Type} (P : α → Bool) :
    ∀ (l : List α) (n : Nat),
      l.foldl (fun cnt x => if P x then cnt + 1 else cnt) n = n + (l.filter P).length := by
  intro l n
  have h := foldl_if_add P 1 l n
  simpa using h

lemma foldl_add_mul {α : Type} (f : α → Nat) (w : Nat) :
    ∀ (l : List α) (n : Nat),
      l.foldl (fun s x => s + f x * w) n = n + (l.map f).sum * w := by
  intro l
  induction l with
  | nil => intro n; simp
  | cons a t ih =>
    intro n
    simp [ih, Nat.add_mul]
    omega

lemma scoreLang_eq_spec (reSearch : String → List Char → Bool)
    (reCount : String → List Char → Nat) (content : List Char)
    (config : LangConfig) :
    scoreLang reSearch reCount content config = specScore reSearch reCount content config := by
  unfold scoreLang specScore
  rw [foldl_add_mul (fun kw => reCount kw content) config.weight]
  rw [foldl_if_add (fun pat => reSearch pat content) (10 * config.weight)]
  ring

lemma computeScores_foldl (reSearch : String → List Char → Bool)
    (reCount : String → List Char → Nat) (content : List Char) :
    ∀ (l : List (String × LangConfig)) (acc : List (String × Nat)),
      l.foldl
        (fun scores entry =>
          let score := scoreLang reSearch reCount content entry.2
          if score > 0 then scores ++ [(entry.1, score)] else scores)
        acc
      = acc ++ (l.map (fun e => (e.1, scoreLang reSearch reCount content e.2))).filter
          (fun p => decide (0 < p.2)) := by
  intro l
  induction l with
  | nil => intro acc; simp
  | cons a t ih =>
    intro acc
    by_cases h : 0 < scoreLang reSearch reCount content a.2
    · simp only [List.foldl_cons, List.map_cons, List.filter_cons]
      rw [ih]
      simp [h]
    · simp only [List.foldl_cons, List.map_cons, List.filter_cons]
      rw [ih]
      simp [h]

lemma computeScores_spec (reSearch : String → List Char → Bool)
    (reCount : String → List Char → Nat) (content : List Char) :
    computeScores reSearch reCount content
      = (language_patterns.map (fun e => (e.1, specScore reSearch reCount content e.2))).filter
          (fun p => decide (0 < p.2)) := by
  unfold computeScores
  rw [computeScores_foldl]
  simp only [scoreLang_eq_spec, List.nil_append]

lemma foldl_max_ge : ∀ (l : List (String × Nat)) (n : Nat),
    n ≤ l.foldl (fun m q => max m q.2) n := by
  intro l
  induction l with
  | nil => intro n; simp
  | cons a t ih =>
    intro n
    simp only [List.foldl_cons]
    exact le_trans (le_max_left n a.2) (ih (max n a.2))

lemma maxKey_mem : ∀ (l : List (String × Nat)) (b : String × Nat),
    maxKey b l ∈ b :: l := by
  intro l
  induction l with
  | nil => intro b; simp [maxKey]
  | cons a t ih =>
    intro b
    show maxKey (if a.2 > b.2 then a else b) t ∈ b :: a :: t
    by_cases h : a.2 > b.2
    · rw [if_pos h]
      have hm := ih a
      simp only [List.mem_cons] at hm ⊢
      tauto
    · rw [if_neg h]
      have hm := ih b
      simp only [List.mem_cons] at hm ⊢
      tauto

lemma maxKey_eq_find : ∀ (l : List (String × Nat)) (b : String × Nat),
    some (maxKey b l)
      = (b :: l).find? (fun p => p.2 == l.foldl (fun m q => max m q.2) b.2) := by
  intro l
  induction l with
  | nil =>
    intro b
    simp [maxKey, List.find?]
  | cons a t ih =>
    intro b
    have hM : (a :: t).foldl (fun m q => max m q.2) b.2
        = t.foldl (fun m q => max m q.2) (max b.2 a.2) := by
      simp [List.foldl_cons]
    by_cases h : a.2 > b.2
    · have hb2 : (if a.2 > b.2 then a else b).2 = max b.2 a.2 := by
        rw [if_pos h]; omega
      have hML : max b.2 a.2 ≤ t.foldl (fun m q => max m q.2) (max b.2 a.2) :=
        foldl_max_ge t (max b.2 a.2)
      have hbne : (b.2 == t.foldl (fun m q => max m q.2) (max b.2 a.2)) = false := by
        apply beq_false_of_ne
        omega
      show some (maxKey (if a.2 > b.2 then a else b) t) = _
      rw [hM]
      rw [List.find?_cons_of_neg _ (by simp [hbne])]
      have := ih (if a.2 > b.2 then a else b)
      rw [if_pos h] at this ⊢
      rw [this]
      have ha2 : a.2 = max b.2 a.2 := by omega
      conv_lhs => rw [ha2]
    · have hmax : max b.2 a.2 = b.2 := by omega
      show some (maxKey (if a.2 > b.2 then a else b) t) = _
      rw [if_neg h, hM, hmax]
      have hIH := ih b
      by_cases hbM : b.2 = t.foldl (fun m q => max m q.2) b.2
      · have hbeq : (b.2 == t.foldl (fun m q => max m q.2) b.2) = true :=
          beq_iff_eq.mpr hbM
        rw [List.find?_cons_of_pos _ (by simpa using hbeq)]
        rw [List.find?_cons_of_pos _ (by simpa using hbeq)] at hIH
        exact hIH
      · have hbeq : (b.2 == t.foldl (fun m q => max m q.2) b.2) = false :=
          beq_false_of_ne hbM
        have hble : b.2 ≤ t.foldl (fun m q => max m q.2) b.2 := foldl_max_ge t b.2
        have haeq : (a.2 == t.foldl (fun m q => max m q.2) b.2) = false := by
          apply beq_false_of_ne
          omega
        rw [List.find?_cons_of_neg _ (by simp [hbeq])]
        rw [List.find?_cons_of_neg _ (by simp [haeq])]
        rw [List.find?_cons_of_neg _ (by simp [hbeq])] at hIH
        exact hIH

lemma detectByCatalog_eq_firstMaxTag (reSearch : String → List Char → Bool)
    (reCount : String → List Char → Nat) (content : List Char) :
    detectByCatalog reSearch reCount content
      = firstMaxTag (computeScores reSearch reCount content) := by
  unfold detectByCatalog firstMaxTag
  cases hsc : computeScores reSearch reCount content with
  | nil => rfl
  | cons h t =>
    have hms : maxScoreVal (h :: t) = t.foldl (fun m q => max m q.2) h.2 := by
      unfold maxScoreVal
      simp [List.foldl_cons]
    simp only [hms]
    rw [← maxKey_eq_find t h]
    rfl

lemma mem_computeScores_names (reSearch : String → List Char → Bool)
    (reCount : String → List Char → Nat) (content : List Char)
    (p : String × Nat) (hp : p ∈ computeScores reSearch reCount content) :
    p.1 ∈ catalogNames := by
  rw [computeScores_spec] at hp
  have hp2 := List.mem_of_mem_filter hp
  rcases List.mem_map.mp hp2 with ⟨e, he, rfl⟩
  exact List.mem_map.mpr ⟨e, he, rfl⟩

lemma detectByCatalog_mem (reSearch : String → List Char → Bool)
    (reCount : String → List Char → Nat) (content : List Char) :
    detectByCatalog reSearch reCount content = none ∨
      ∃ tag, detectByCatalog reSearch reCount content = some tag ∧ tag ∈ catalogNames := by
  unfold detectByCatalog
  cases hsc : computeScores reSearch reCount content with
  | nil => left; rfl
  | cons h t =>
    right
    refine ⟨(maxKey h t).1, rfl, ?_⟩
    have hmem : maxKey h t ∈ h :: t := maxKey_mem t h
    rw [← hsc] at hmem
    exact mem_computeScores_names reSearch reCount content _ hmem

lemma detect_mem_catalog (reSearch : String → List Char → Bool)
    (reCount : String → List Char → Nat) (content : List Char) :
    detect_language_from_content reSearch reCount content = none ∨
      ∃ tag, detect_language_from_content reSearch reCount content = some tag ∧
        tag ∈ catalogNames := by
  unfold detect_language_from_content
  split
  · left; rfl
  · split
    · split
      · right; exact ⟨"python", rfl, by decide⟩
      · split
        · right; exact ⟨"bash", rfl, by decide⟩
        · split
          · right; exact ⟨"javascript", rfl, by decide⟩
          · exact detectByCatalog_mem reSearch reCount content
    · exact detectByCatalog_mem reSearch reCount content

lemma pyStrip_nil_all_ws (l : List Char) (h : pyStrip l = []) :
    ∀ c ∈ l, pyWhitespace c = true := by
  unfold pyStrip at h
  rw [List.reverse_eq_nil_iff, List.dropWhile_eq_nil_iff] at h
  intro c hc
  have hsplit : c ∈ l.takeWhile pyWhitespace ++ l.dropWhile pyWhitespace := by
    rw [List.takeWhile_append_dropWhile]
    exact hc
  rcases List.mem_append.mp hsplit with h1 | h2
  · exact List.mem_takeWhile_imp h1
  · exact h c (List.mem_reverse.mpr h2)

lemma splitLines_ne_nil : ∀ l : List Char, splitLines l ≠ [] := by
  intro l
  cases l with
  | nil => simp [splitLines]
  | cons c rest =>
    rw [splitLines]
    cases hs : splitLines rest with
    | nil => simp
    | cons h t =>
      by_cases hc : (c == '\n') = true
      · simp [hc]
      · simp [hc]

lemma mem_headLine (l : List Char) : ∀ c ∈ (splitLines l).headD [], c ∈ l := by
  induction l with
  | nil =>
    intro c hc
    simp [splitLines] at hc
  | cons a rest ih =>
    intro c hc
    rw [splitLines] at hc
    cases hs : splitLines rest with
    | nil => exact absurd hs (splitLines_ne_nil rest)
    | cons h t =>
      rw [hs] at hc
      dsimp only at hc
      by_cases ha : (a == '\n') = true
      · rw [if_pos ha] at hc
        simp at hc
      · rw [if_neg ha] at hc
        simp only [List.headD_cons] at hc
        rcases List.mem_cons.mp hc with rfl | hmem
        · exact List.mem_cons_self _ _
        · refine List.mem_cons_of_mem _ (ih c ?_)
          rw [hs]
          simpa using hmem

lemma shebang_guard (content : List Char)
    (hp : List.isPrefixOf ("#!".toList) (firstLineLower content) = true) :
    content.isEmpty = false ∧ (pyStrip content).isEmpty = false := by
  constructor
  · cases content with
    | nil => exact absurd hp (by decide)
    | cons a rest => rfl
  · cases hse : (pyStrip content).isEmpty with
    | false => rfl
    | true =>
      exfalso
      have hnil : pyStrip content = [] := by
        cases hpc : pyStrip content with
        | nil => rfl
        | cons x xs => rw [hpc] at hse; simp at hse
      have hws := pyStrip_nil_all_ws content hnil
      cases hfl : firstLineLower content with
      | nil => rw [hfl] at hp; exact absurd hp (by decide)
      | cons d0 dl =>
        rw [hfl] at hp
        have htl : ("#!".toList) = ['#', '!'] := by decide
        rw [htl] at hp
        have hp2 : (('#' == d0) && List.isPrefixOf ['!'] dl) = true := by
          simpa [List.isPrefixOf] using hp
        have hd0 : '#' = d0 := beq_iff_eq.mp (Bool.and_elim_left hp2)
        cases hhl : (splitLines content).headD [] with
        | nil =>
          rw [firstLineLower, hhl] at hfl
          simp [lowerStr] at hfl
        | cons e el =>
          have he : Char.toLower e = d0 := by
            rw [firstLineLower, hhl] at hfl
            simp only [lowerStr, List.map_cons, List.cons.injEq] at hfl
            exact hfl.1
          have hemem : e ∈ content :=
            mem_headLine content e (by rw [hhl]; exact List.mem_cons_self _ _)
          have hwse : pyWhitespace e = true := hws e hemem
          have hcases : e = ' ' ∨ e = '\t' ∨ e = '\n' ∨ e = '\r' ∨ e = '\x0b' ∨ e = '\x0c' := by
            simp only [pyWhitespace, Bool.or_eq_true, beq_iff_eq] at hwse
            tauto
          have hfinal : '#' = Char.toLower e := hd0.trans he.symm
          rcases hcases with rfl | rfl | rfl | rfl | rfl | rfl <;> exact absurd hfinal (by decide)

lemma detect_some_ne_empty (reSearch : String → List Char → Bool)
    (reCount : String → List Char → Nat) (content : List Char) (tag : String)
    (h : detect_language_from_content reSearch reCount content = some tag) :
    (tag == "") = false := by
  rcases detect_mem_catalog reSearch reCount content with hn | ⟨t, ht, hmem⟩
  · rw [hn] at h; cases h
  · rw [ht] at h
    injection h with h
    subst h
    have hne : ∀ x ∈ catalogNames, x ≠ "" := by decide
    exact beq_false_of_ne (hne t hmem)

lemma code_line_count_eq_spec (reSearch : String → List Char → Bool)
    (text : List Char) :
    code_line_count_of reSearch text = specCodeLineCount reSearch text := by
  unfold code_line_count_of specCodeLineCount
  rw [foldl_count_eq (fun line => code_indicators.any (fun pat => reSearch pat line))]
  simp

/-! ### Claim theorems -/

/-- C1 (code bug evidence): on an immediate second `check_rate_limit` call for
the same actor inside the window (`RATE_LIMIT_WINDOW = 60`, calls at times 0
and 1), the code returns `true` again and overwrites the recorded timestamp,
because `user_rate_limit.clear()` at the top of the function empties the dict
on every call.  The claim (and the function's own docstring and purge loop)
require the second call to return `false` with the timestamp unchanged. -/
theorem check_rate_limit_second_call_allowed :
    (check_rate_limit 60 1 0 []).1 = true ∧
    (check_rate_limit 60 1 1 (check_rate_limit 60 1 0 []).2).1 = true ∧
    (check_rate_limit 60 1 1 (check_rate_limit 60 1 0 []).2).2 = [(1, 1)] := by
  decide

/-- C2: every `check_rate_limit` call returns `true`, for every window, actor
id, call instant and prior state of the dict: `user_rate_limit.clear()` makes
the purge-loop body and the deny branch unreachable, and after the call the
dict holds exactly the one entry mapping the calling actor to the current
time. -/
theorem check_rate_limit_always_allows :
    ∀ (window : Int) (user_id : Nat) (current_time : Int) (m : List (Nat × Int)),
      check_rate_limit window user_id current_time m = (true, [(user_id, current_time)]) :=
  fun _ _ _ _ => rfl

/-- C3: any text whose character count is strictly below the configured
minimum is never externalised, regardless of content and of the regex
semantics. -/
theorem should_create_paste_short_false
    (minLen : Nat) (reSearch : String → List Char → Bool)
    (reCount : String → List Char → Nat) (text : List Char)
    (h : text.length < minLen) :
    should_create_paste minLen reSearch reCount text = false := by
  unfold should_create_paste
  rw [if_pos h]

theorem should_create_paste_short_false_witness :
    ("hi".toList.length < MIN_MESSAGE_LENGTH) ∧
      should_create_paste MIN_MESSAGE_LENGTH (fun _ _ => false) (fun _ _ => 0)
        ("hi".toList) = false :=
  ⟨by decide,
   should_create_paste_short_false MIN_MESSAGE_LENGTH (fun _ _ => false)
     (fun _ _ => 0) ("hi".toList) (by decide)⟩

/-- C4: with the default minimum length 200, a text longer than 1000
characters is always externalised regardless of code-likeness, and a text of
at least the minimum length is externalised whenever the number of lines
matching at least one code indicator (each line counted at most once) exceeds
30 percent of the total line count. -/
theorem should_create_paste_long_or_code_true
    (reSearch : String → List Char → Bool) (reCount : String → List Char → Nat)
    (text : List Char)
    (h : text.length > 1000 ∨
      (MIN_MESSAGE_LENGTH ≤ text.length ∧
        10 * specCodeLineCount reSearch text > 3 * (splitLines text).length)) :
    should_create_paste MIN_MESSAGE_LENGTH reSearch reCount text = true := by
  have hmin : MIN_MESSAGE_LENGTH = 200 := rfl
  have hlen : ¬ (text.length < MIN_MESSAGE_LENGTH) := by
    rcases h with h | ⟨h1, _⟩
    · omega
    · omega
  unfold should_create_paste
  rw [if_neg hlen, if_pos]
  rcases h with h | ⟨_, h2⟩
  · exact Or.inl h
  · right
    rw [code_line_count_eq_spec]
    exact h2

theorem should_create_paste_long_or_code_true_witness :
    (MIN_MESSAGE_LENGTH ≤ (List.replicate 200 'a').length ∧
      10 * specCodeLineCount (fun _ _ => true) (List.replicate 200 'a')
        > 3 * (splitLines (List.replicate 200 'a')).length) ∧
    should_create_paste MIN_MESSAGE_LENGTH (fun _ _ => true) (fun _ _ => 0)
      (List.replicate 200 'a') = true :=
  ⟨by decide,
   should_create_paste_long_or_code_true (fun _ _ => true) (fun _ _ => 0)
     (List.replicate 200 'a') (Or.inr (by decide))⟩

/-- C5: with the default minimum length 200, a text of mid-range length
(at least the minimum, at most 1000 characters) whose code-line ratio does not
exceed 30 percent is externalised exactly when the language detector returns a
non-unknown tag. -/
theorem should_create_paste_midrange_iff_detect
    (reSearch : String → List Char → Bool) (reCount : String → List Char → Nat)
    (text : List Char)
    (h1 : MIN_MESSAGE_LENGTH ≤ text.length) (h2 : text.length ≤ 1000)
    (h3 : ¬ (10 * specCodeLineCount reSearch text > 3 * (splitLines text).length)) :
    (should_create_paste MIN_MESSAGE_LENGTH reSearch reCount text = true ↔
      (detect_language_from_content reSearch reCount text).isSome = true) := by
  have hlen : ¬ (text.length < MIN_MESSAGE_LENGTH) := by omega
  have hcc : ¬ (text.length > 1000 ∨
      10 * code_line_count_of reSearch text > 3 * (splitLines text).length) := by
    rw [code_line_count_eq_spec]
    push_neg
    constructor
    · omega
    · omega
  unfold should_create_paste
  rw [if_neg hlen, if_neg hcc]
  cases hd : detect_language_from_content reSearch reCount text with
  | none => simp
  | some tag =>
    have hne := detect_some_ne_empty reSearch reCount text tag hd
    simp [hne]

theorem should_create_paste_midrange_iff_detect_witness :
    (MIN_MESSAGE_LENGTH ≤ (List.replicate 200 'a').length ∧
      (List.replicate 200 'a').length ≤ 1000 ∧
      ¬ (10 * specCodeLineCount (fun _ _ => false) (List.replicate 200 'a')
          > 3 * (splitLines (List.replicate 200 'a')).length)) ∧
    (should_create_paste MIN_MESSAGE_LENGTH (fun _ _ => false) (fun _ _ => 0)
        (List.replicate 200 'a') = true ↔
      (detect_language_from_content (fun _ _ => false) (fun _ _ => 0)
        (List.replicate 200 'a')).isSome = true) :=
  ⟨by decide,
   should_create_paste_midrange_iff_detect (fun _ _ => false) (fun _ _ => 0)
     (List.replicate 200 'a') (by decide) (by decide) (by decide)⟩

/-- C6: when the lowered first line starts with `#!`, the shebang shortcut
alone decides the result, for every choice of regex oracles (hence regardless
of how the remaining body would score under the catalog): `python` wins first,
then `bash`/`sh`, then `node`. -/
theorem detect_shebang_shortcut
    (reSearch : String → List Char → Bool) (reCount : String → List Char → Nat)
    (content : List Char)
    (hp : List.isPrefixOf ("#!".toList) (firstLineLower content) = true) :
    (listContains ("python".toList) (firstLineLower content) = true →
      detect_language_from_content reSearch reCount content = some "python") ∧
    (listContains ("python".toList) (firstLineLower content) = false →
      (listContains ("bash".toList) (firstLineLower content)
        || listContains ("sh".toList) (firstLineLower content)) = true →
      detect_language_from_content reSearch reCount content = some "bash") ∧
    (listContains ("python".toList) (firstLineLower content) = false →
      (listContains ("bash".toList) (firstLineLower content)
        || listContains ("sh".toList) (firstLineLower content)) = false →
      listContains ("node".toList) (firstLineLower content) = true →
      detect_language_from_content reSearch reCount content = some "javascript") := by
  obtain ⟨hne, hns⟩ := shebang_guard content hp
  have hguard : ¬ ((content.isEmpty || (pyStrip content).isEmpty) = true) := by
    rw [hne, hns]
    decide
  refine ⟨?_, ?_, ?_⟩
  · intro hpy
    unfold detect_language_from_content
    rw [if_neg hguard, if_pos hp, if_pos hpy]
  · intro hpy hbs
    unfold detect_language_from_content
    rw [if_neg hguard, if_pos hp, if_neg (by rw [hpy]; exact Bool.false_ne_true),
      if_pos hbs]
  · intro hpy hbs hnode
    unfold detect_language_from_content
    rw [if_neg hguard, if_pos hp, if_neg (by rw [hpy]; exact Bool.false_ne_true),
      if_neg (by rw [hbs]; exact Bool.false_ne_true), if_pos hnode]

theorem detect_shebang_shortcut_witness :
    detect_language_from_content (fun _ _ => true) (fun _ _ => 100)
      ("#!/usr/bin/env python".toList) = some "python" :=
  (detect_shebang_shortcut (fun _ _ => true) (fun _ _ => 100)
    ("#!/usr/bin/env python".toList) (by decide)).1 (by decide)

/-- C7: the candidate score dict equals the spec formula applied across the
catalog: each language's score is `10 * weight` per pattern that matches the
full text (each pattern counted at most once) plus `weight` times the
whole-token occurrence count of each keyword, and languages with zero score
are excluded. -/
theorem computeScores_eq_spec_formula
    (reSearch : String → List Char → Bool) (reCount : String → List Char → Nat)
    (content : List Char) :
    computeScores reSearch reCount content
      = (language_patterns.map
          (fun e => (e.1, specScore reSearch reCount content e.2))).filter
            (fun p => decide (0 < p.2)) :=
  computeScores_spec reSearch reCount content

/-- C8: on any non-blank input that does not take the shebang shortcut, the
detector returns the tag of the earliest candidate attaining the maximum
score (so ties resolve in catalog insertion order), and `none` when the
candidate set is empty — this is `firstMaxTag` of the candidate list. -/
theorem detect_no_shebang_first_max
    (reSearch : String → List Char → Bool) (reCount : String → List Char → Nat)
    (content : List Char)
    (h1 : content.isEmpty = false) (h2 : (pyStrip content).isEmpty = false)
    (h3 : takesShebangShortcut content = false) :
    detect_language_from_content reSearch reCount content
      = firstMaxTag (computeScores reSearch reCount content) := by
  have hguard : ¬ ((content.isEmpty || (pyStrip content).isEmpty) = true) := by
    rw [h1, h2]
    decide
  unfold takesShebangShortcut at h3
  unfold detect_language_from_content
  rw [if_neg hguard]
  by_cases hpf : List.isPrefixOf ("#!".toList) (firstLineLower content) = true
  · rw [if_pos hpf]
    rw [hpf] at h3
    simp only [Bool.true_and, Bool.or_eq_false_iff] at h3
    obtain ⟨⟨⟨hpy, hb⟩, hsh⟩, hn⟩ := h3
    rw [if_neg (by rw [hpy]; exact Bool.false_ne_true),
      if_neg (by rw [hb, hsh]; decide), if_neg (by rw [hn]; exact Bool.false_ne_true)]
    exact detectByCatalog_eq_firstMaxTag reSearch reCount content
  · rw [if_neg hpf]
    exact detectByCatalog_eq_firstMaxTag reSearch reCount content

theorem detect_no_shebang_first_max_witness :
    detect_language_from_content (fun _ _ => true) (fun _ _ => 0)
        ("hello".toList)
      = firstMaxTag (computeScores (fun _ _ => true) (fun _ _ => 0)
        ("hello".toList)) :=
  detect_no_shebang_first_max (fun _ _ => true) (fun _ _ => 0) ("hello".toList)
    (by decide) (by decide) (by decide)

/-- C9: the detector is deterministic — it is a pure function of the input
text and the static catalog (the shallow embedding threads no state), so two
runs on identical input give identical results. -/
theorem detect_deterministic
    (reSearch : String → List Char → Bool) (reCount : String → List Char → Nat)
    (content : List Char) :
    detect_language_from_content reSearch reCount content
      = detect_language_from_content reSearch reCount content := rfl

/-- C10: the detector returns `none` or a tag from the catalog's name set
(the shebang shortcut's tags are catalog names too), every key of the
ephemeral score mapping is a catalog name, and the catalog's name set is
exactly the fourteen listed languages. -/
theorem detect_tags_subset_catalog
    (reSearch : String → List Char → Bool) (reCount : String → List Char → Nat)
    (content : List Char) :
    (detect_language_from_content reSearch reCount content = none ∨
      ∃ tag, detect_language_from_content reSearch reCount content = some tag ∧
        tag ∈ catalogNames) ∧
    (∀ p ∈ computeScores reSearch reCount content, p.1 ∈ catalogNames) ∧
    catalogNames = ["html", "css", "javascript", "python", "php", "sql", "java",
      "cpp", "bash", "json", "xml", "yaml", "markdown", "c"] :=
  ⟨detect_mem_catalog reSearch reCount content,
   fun p hp => mem_computeScores_names reSearch reCount content p hp,
   by decide⟩

theorem detect_tags_subset_catalog_witness :
    (("html", 1200) ∈ computeScores (fun _ _ => true) (fun _ _ => 0)
        ("hello".toList)) ∧
    "html" ∈ catalogNames :=
  ⟨by decide,
   (detect_tags_subset_catalog (fun _ _ => true) (fun _ _ => 0)
     ("hello".toList)).2.1 ("html", 1200) (by decide)⟩
